import Mathlib

/-!
Verification of the RapidSMS relay (vumi.application.rapidsms_relay).

The relay forwards backbone messages to a remote RapidSMS system over HTTP
and accepts outbound-send requests back over an authenticated HTTP endpoint.
The definitions below are a shallow embedding of the module: Python strings
become Lean `String`s, byte strings become `List Nat` with every entry below
256, values that may be `None` become `Option`, and code that can raise
becomes `Except PyErr`.
-/

namespace RapidSMS

/-- Exceptions the embedded code can raise: `ConfigError` from
`get_auth_headers`, `TypeError` from `str.join` on a `None` item,
`UnauthorizedLogin` from `get_avatar_id`, and `NameError` for the unbound
`original_message` in the disabled reply branch. -/
inductive PyErr where
  | configError : String → PyErr
  | typeError : String → PyErr
  | unauthorizedLogin : PyErr
  | nameError : String → PyErr
  deriving DecidableEq, Repr

/-- HTTP headers: names mapped to lists of values, as the source builds
`\x7b'Authorization': ['Basic ...']\x7d`. -/
abbrev Headers : Type := List (String × List String)

/-- Python's `sep.join(items)` for string items: `a + sep + b + sep + ...`. -/
def py_join (sep : String) : List String → String
  | [] => ""
  | [x] => x
  | x :: xs => x ++ sep ++ py_join sep xs

/-- Python's `sep.join` applied to a list that may hold `None` entries: a
`None` item raises `TypeError`, exactly as CPython does. -/
def py_join_opt (sep : String) (items : List (Option String)) : Except PyErr String :=
  match items.mapM id with
  | some vals => Except.ok (py_join sep vals)
  | none => Except.error (PyErr.typeError "sequence item: expected string, NoneType found")

/-- Python's `repr` of a string, as used in the ConfigError message. -/
def py_repr (s : String) : String := "'" ++ s ++ "'"

/-- The UTF-8 bytes of a string, as `str.encode('utf-8')` produces. -/
def utf8_bytes (s : String) : List Nat := s.toUTF8.toList.map (fun b => b.toNat)

/-- The standard base64 alphabet used by Python's `base64.b64encode`. -/
def b64_alphabet : List Char :=
  "ABCDEFGHIJKLMNOPQRSTUVWXYZabcdefghijklmnopqrstuvwxyz0123456789+/".toList

/-- Character for a 6-bit group. -/
def b64char (n : Nat) : Char := b64_alphabet.getD n 'A'

/-- Index of a character in the base64 alphabet. -/
def b64idx (c : Char) : Nat := b64_alphabet.indexOf c

/-- Base64 encoding of a byte sequence (bytes as `Nat < 256`), following
RFC 4648 with `=` padding, the algorithm `base64.b64encode` implements. -/
def b64encode : List Nat → List Char
  | [] => []
  | [a] => [b64char (a / 4), b64char (a % 4 * 16), '=', '=']
  | [a, b] => [b64char (a / 4), b64char (a % 4 * 16 + b / 16), b64char (b % 16 * 4), '=']
  | a :: b :: c :: rest =>
      b64char (a / 4) :: b64char (a % 4 * 16 + b / 16) ::
      b64char (b % 16 * 4 + c / 64) :: b64char (c % 64) :: b64encode rest

/-- Modelled from the spec: the decoder of a Basic payload ("the decoded
Basic payload equals `u:p`"); the inverse reading of RFC 4648 base64,
absent from the source, which only encodes. -/
def b64decode : List Char → List Nat
  | c1 :: c2 :: c3 :: c4 :: rest =>
      if c3 = '=' then
        [b64idx c1 * 4 + b64idx c2 / 16]
      else if c4 = '=' then
        [b64idx c1 * 4 + b64idx c2 / 16, b64idx c2 % 16 * 16 + b64idx c3 / 4]
      else
        (b64idx c1 * 4 + b64idx c2 / 16) :: (b64idx c2 % 16 * 16 + b64idx c3 / 4) ::
        (b64idx c3 % 4 * 64 + b64idx c4) :: b64decode rest
  | _ => []

theorem b64idx_b64char : ∀ n, n < 64 → b64idx (b64char n) = n := by decide

theorem b64char_ne_pad : ∀ n, n < 64 → b64char n ≠ '=' := by decide

theorem b64_roundtrip : ∀ bs : List Nat, (∀ x ∈ bs, x < 256) →
    b64decode (b64encode bs) = bs
  | [], _ => rfl
  | [a], h => by
    have ha : a < 256 := h a (by simp)
    have h1 : a / 4 < 64 := by omega
    have h2 : a % 4 * 16 < 64 := by omega
    show b64decode [b64char (a / 4), b64char (a % 4 * 16), '=', '='] = [a]
    show (if ('=' : Char) = '=' then
        [b64idx (b64char (a / 4)) * 4 + b64idx (b64char (a % 4 * 16)) / 16]
      else _) = [a]
    rw [if_pos rfl, b64idx_b64char _ h1, b64idx_b64char _ h2]
    have : a / 4 * 4 + a % 4 * 16 / 16 = a := by omega
    rw [this]
  | [a, b], h => by
    have ha : a < 256 := h a (by simp)
    have hb : b < 256 := h b (by simp)
    have h1 : a / 4 < 64 := by omega
    have h2 : a % 4 * 16 + b / 16 < 64 := by omega
    have h3 : b % 16 * 4 < 64 := by omega
    show b64decode [b64char (a / 4), b64char (a % 4 * 16 + b / 16),
        b64char (b % 16 * 4), '='] = [a, b]
    show (if b64char (b % 16 * 4) = '=' then _
      else if ('=' : Char) = '=' then
        [b64idx (b64char (a / 4)) * 4 + b64idx (b64char (a % 4 * 16 + b / 16)) / 16,
         b64idx (b64char (a % 4 * 16 + b / 16)) % 16 * 16 + b64idx (b64char (b % 16 * 4)) / 4]
      else _) = [a, b]
    rw [if_neg (b64char_ne_pad _ h3), if_pos rfl,
      b64idx_b64char _ h1, b64idx_b64char _ h2, b64idx_b64char _ h3]
    have e1 : a / 4 * 4 + (a % 4 * 16 + b / 16) / 16 = a := by omega
    have e2 : (a % 4 * 16 + b / 16) % 16 * 16 + b % 16 * 4 / 4 = b := by omega
    rw [e1, e2]
  | a :: b :: c :: rest, h => by
    have ha : a < 256 := h a (by simp)
    have hb : b < 256 := h b (by simp)
    have hc : c < 256 := h c (by simp)
    have h1 : a / 4 < 64 := by omega
    have h2 : a % 4 * 16 + b / 16 < 64 := by omega
    have h3 : b % 16 * 4 + c / 64 < 64 := by omega
    have h4 : c % 64 < 64 := by omega
    show b64decode (b64char (a / 4) :: b64char (a % 4 * 16 + b / 16) ::
        b64char (b % 16 * 4 + c / 64) :: b64char (c % 64) :: b64encode rest) =
      a :: b :: c :: rest
    show (if b64char (b % 16 * 4 + c / 64) = '=' then _
      else if b64char (c % 64) = '=' then _
      else (b64idx (b64char (a / 4)) * 4 + b64idx (b64char (a % 4 * 16 + b / 16)) / 16) ::
        (b64idx (b64char (a % 4 * 16 + b / 16)) % 16 * 16 +
          b64idx (b64char (b % 16 * 4 + c / 64)) / 4) ::
        (b64idx (b64char (b % 16 * 4 + c / 64)) % 4 * 64 + b64idx (b64char (c % 64))) ::
        b64decode (b64encode rest)) = a :: b :: c :: rest
    rw [if_neg (b64char_ne_pad _ h3), if_neg (b64char_ne_pad _ h4),
      b64idx_b64char _ h1, b64idx_b64char _ h2, b64idx_b64char _ h3, b64idx_b64char _ h4]
    have e1 : a / 4 * 4 + (a % 4 * 16 + b / 16) / 16 = a := by omega
    have e2 : (a % 4 * 16 + b / 16) % 16 * 16 + (b % 16 * 4 + c / 64) / 4 = b := by omega
    have e3 : (b % 16 * 4 + c / 64) % 4 * 64 + c % 64 = c := by omega
    rw [e1, e2, e3, b64_roundtrip rest (fun x hx => h x (by simp [hx]))]

theorem utf8_bytes_lt (s : String) : ∀ x ∈ utf8_bytes s, x < 256 := by
  intro x hx
  simp only [utf8_bytes, List.mem_map] at hx
  obtain ⟨b, _, rfl⟩ := hx
  exact b.toNat_lt

/-- The fields of `RapidSMSRelayConfig` the message-handling and
authentication pipeline reads (listener and URL settings are external
collaborators). Defaults follow the `ConfigText`/`ConfigInt`/`ConfigBool`
declarations in the source. -/
structure RapidSMSRelayConfig where
  allow_replies : Bool
  vumi_username : Option String
  vumi_password : Option String
  vumi_auth_method : String
  vumi_reply_timeout : Nat
  rapidsms_username : Option String
  rapidsms_password : Option String
  rapidsms_auth_method : String
  rapidsms_http_method : String
  deriving DecidableEq

/-- `RapidSMSRelay.generate_basic_auth_headers`: joins username and password
with `:` (a `None` password raises `TypeError`), UTF-8-encodes, base64-encodes
and builds the single `Authorization` header. -/
def generate_basic_auth_headers (username : String) (password : Option String) :
    Except PyErr Headers :=
  match py_join_opt ":" [some username, password] with
  | Except.error e => Except.error e
  | Except.ok credentials =>
      let auth_string := String.mk (b64encode (utf8_bytes credentials))
      Except.ok [("Authorization", ["Basic " ++ auth_string])]

/-- `RapidSMSRelay.validate_config` builds `supported_auth_methods`, a table
from method name to header generator, holding only `basic`. -/
def supported_auth_methods :
    List (String × (String → Option String → Except PyErr Headers)) :=
  [("basic", generate_basic_auth_headers)]

/-- `RapidSMSRelay.get_auth_headers`: raises `ConfigError` when the configured
`rapidsms_auth_method` is not in the table; otherwise calls the handler when
`rapidsms_username` is set, and returns no headers when it is unset. -/
def get_auth_headers (config : RapidSMSRelayConfig) : Except PyErr Headers :=
  match supported_auth_methods.lookup config.rapidsms_auth_method with
  | none => Except.error (PyErr.configError
      ("HTTP Authentication method " ++ py_repr config.rapidsms_auth_method
        ++ " not supported"))
  | some handler =>
      match config.rapidsms_username with
      | some username => handler username config.rapidsms_password
      | none => Except.ok []

/-- Credential shapes the access checker can receive: `IAnonymous`,
`IUsernamePassword`, or anything else. -/
inductive Creds where
  | anonymous : Creds
  | usernamePassword : String → String → Creds
  | other : Creds
  deriving DecidableEq

/-- `RapidSMSRelay.get_avatar_id`. The configuration is resolved per call
from a `ConfigContext` carrying the username, modelled as a function from
that optional username. Anonymous credentials yield avatar `none` when no
`vumi_username` is configured; username/password credentials yield the
username when both match the configuration (a Python `str` never equals
`None`, so an unset configured field can never match); every other path
raises `UnauthorizedLogin`. -/
def get_avatar_id (getConfig : Option String → RapidSMSRelayConfig) :
    Creds → Except PyErr (Option String)
  | Creds.anonymous =>
      let config := getConfig none
      if config.vumi_username = none then Except.ok none
      else Except.error PyErr.unauthorizedLogin
  | Creds.usernamePassword username password =>
      let config := getConfig (some username)
      if some username = config.vumi_username ∧ some password = config.vumi_password
      then Except.ok (some username)
      else Except.error PyErr.unauthorizedLogin
  | Creds.other => Except.error PyErr.unauthorizedLogin

/-- A backbone message as produced by `send_to(to_addr, content)`: the
fields the relay sets, plus its wire payload as an opaque rendering. -/
structure Msg where
  to_addr : String
  content : String
  deriving DecidableEq

/-- The wire representation of a message, as `msg.payload` serialized by
`to_json`. Kept opaque: a rendering determined by the message fields. -/
def Msg.payload (m : Msg) : String :=
  "\x7b to_addr: " ++ m.to_addr ++ ", content: " ++ m.content ++ " \x7d"

/-- `to_json` of a list of payloads: a JSON array. -/
def to_json_list (payloads : List String) : String :=
  "[" ++ py_join ", " payloads ++ "]"

/-- The decoded body of a well-formed send request, after
`json.loads(request.content.read())` and the `content`/`to_addr` lookups. -/
structure OutboundData where
  content : String
  to_addr : List String
  in_reply_to : Option String
  deriving DecidableEq

/-- One step of `DeferredList` result collection: when deferred `i` fires,
its outcome is written into slot `i` of the result list. `order` is the
sequence in which the deferreds fire (their completion order); an index with
no matching send leaves the slots unchanged. -/
def run_deferred_list (sends : List (Except String Msg)) :
    List Nat → List (Option (Except String Msg)) → List (Option (Except String Msg))
  | [], slots => slots
  | i :: rest, slots =>
      match sends[i]? with
      | some v => run_deferred_list sends rest (slots.set i (some v))
      | none => run_deferred_list sends rest slots

/-- The `DeferredList` callback fires only once every slot holds a result;
until then the aggregate deferred stays pending. -/
def collect (slots : List (Option (Except String Msg))) :
    Option (List (Except String Msg)) :=
  slots.mapM id

/-- `RapidSMSRelay.handle_raw_outbound_message` on a decoded body. `send`
models `self.send_to(to_addr, content)` resolving to a message or a failure;
`order` is the completion order of the individual sends. The reply branch in
the source is guarded by a literal `False` (`if 'in_reply_to' in data and
False:`) and its body reads the unbound name `original_message`, so entering
it would raise `NameError`; the guard makes every request take the fresh-send
branch. `DeferredList(sends, consumeErrors=True)` joins all sends, then
`[msg[1] for msg in msgs if msg[0]]` keeps the successful results in slot
order. A `none` result models the aggregate deferred never firing (only
possible when some send never completes). -/
def handle_raw_outbound_message (send : String → String → Except String Msg)
    (order : List Nat) (data : OutboundData) : Option (Except PyErr (List Msg)) :=
  if data.in_reply_to.isSome && false then
    some (Except.error (PyErr.nameError "original_message"))
  else
    let sends := data.to_addr.map (fun to_addr => send to_addr data.content)
    match collect (run_deferred_list sends order (List.replicate sends.length none)) with
    | some results =>
        some (Except.ok (results.filterMap (fun r => r.toOption)))
    | none => none

/-- `SendResource.finish_request`: set response code 200 (`http.OK`) and
write the JSON list of the dispatched messages' payloads. -/
def finish_request (msgs : List Msg) : Nat × String :=
  (200, to_json_list (msgs.map Msg.payload))

/-- The successfully dispatched messages listed in the order their sends
completed (the claim's reading of the result order): walk the completion
order, look up each firing send, and keep the successes. -/
def completed_successes (send : String → String → Except String Msg)
    (order : List Nat) (data : OutboundData) : List Msg :=
  (order.filterMap (fun i => data.to_addr[i]?)).filterMap
    (fun to_addr => (send to_addr data.content).toOption)

/-- What the relay logs while forwarding. -/
inductive LogEntry where
  | info : Nat → LogEntry
  | err : String → LogEntry
  deriving DecidableEq

/-- The outcome of `http_request_full`: an HTTP response carrying a status
code, or a transport failure carrying an error. -/
abbrev HttpOutcome : Type := Except String Nat

/-- The `addCallback(lambda response: log.info(response.code))` stage: on
success, log the status code; the callback's `None` result replaces the
deferred's value. Failures pass through untouched. -/
def log_response_code (d : HttpOutcome) : Except String Unit × List LogEntry :=
  match d with
  | Except.ok code => (Except.ok (), [LogEntry.info code])
  | Except.error e => (Except.error e, [])

/-- The `addErrback(lambda failure: log.err(failure))` stage: on failure, log
it; the errback's `None` result converts the failure into a success, so the
error stops propagating. Successes pass through untouched. -/
def log_and_consume_failure :
    Except String Unit × List LogEntry → Except String Unit × List LogEntry
  | (Except.ok a, logs) => (Except.ok a, logs)
  | (Except.error e, logs) => (Except.ok (), logs ++ [LogEntry.err e])

/-- `RapidSMSRelay._call_rapidsms`: issue the HTTP request (its outcome is
the argument), attach the logging callback and errback, and wait for the
resulting deferred. -/
def call_rapidsms (outcome : HttpOutcome) : Except String Unit × List LogEntry :=
  log_and_consume_failure (log_response_code outcome)

/-- `RapidSMSRelay.consume_user_message` returns `self._call_rapidsms(message)`
unchanged; `close_session` does the same. -/
def consume_user_message (outcome : HttpOutcome) : Except String Unit × List LogEntry :=
  call_rapidsms outcome

theorem run_deferred_list_length (sends : List (Except String Msg)) :
    ∀ (order : List Nat) (slots : List (Option (Except String Msg))),
      (run_deferred_list sends order slots).length = slots.length
  | [], _ => rfl
  | i :: rest, slots => by
    cases h : sends[i]? with
    | some v =>
        simp only [run_deferred_list, h]
        rw [run_deferred_list_length sends rest, List.length_set]
    | none =>
        simp only [run_deferred_list, h]
        exact run_deferred_list_length sends rest slots

theorem run_deferred_list_get_not_mem (sends : List (Except String Msg)) :
    ∀ (order : List Nat) (slots : List (Option (Except String Msg))) (j : Nat),
      j ∉ order → (run_deferred_list sends order slots)[j]? = slots[j]?
  | [], _, _, _ => rfl
  | i :: rest, slots, j, hj => by
    have hji : i ≠ j := fun h => hj (h ▸ List.mem_cons_self i rest)
    have hjr : j ∉ rest := fun h => hj (List.mem_cons_of_mem i h)
    cases h : sends[i]? with
    | some v =>
        simp only [run_deferred_list, h]
        rw [run_deferred_list_get_not_mem sends rest _ j hjr]
        exact List.getElem?_set_ne hji
    | none =>
        simp only [run_deferred_list, h]
        exact run_deferred_list_get_not_mem sends rest slots j hjr

theorem run_deferred_list_get_none (sends : List (Except String Msg)) :
    ∀ (order : List Nat) (slots : List (Option (Except String Msg))) (j : Nat),
      sends[j]? = none → (run_deferred_list sends order slots)[j]? = slots[j]?
  | [], _, _, _ => rfl
  | i :: rest, slots, j, hj => by
    cases h : sends[i]? with
    | some v =>
        have hij : i ≠ j := fun he => by rw [he, hj] at h; cases h
        simp only [run_deferred_list, h]
        rw [run_deferred_list_get_none sends rest _ j hj]
        exact List.getElem?_set_ne hij
    | none =>
        simp only [run_deferred_list, h]
        exact run_deferred_list_get_none sends rest slots j hj

theorem run_deferred_list_get_mem (sends : List (Except String Msg)) :
    ∀ (order : List Nat) (slots : List (Option (Except String Msg))) (j : Nat)
      (v : Except String Msg), sends[j]? = some v → j ∈ order →
      slots.length = sends.length →
      (run_deferred_list sends order slots)[j]? = some (some v)
  | [], _, j, _, _, hmem, _ => absurd hmem (List.not_mem_nil j)
  | i :: rest, slots, j, v, hv, hmem, hlen => by
    have hjlen : j < sends.length := by
      by_contra hge
      rw [List.getElem?_eq_none (by omega)] at hv
      cases hv
    cases h : sends[i]? with
    | some w =>
        simp only [run_deferred_list, h]
        by_cases hjr : j ∈ rest
        · exact run_deferred_list_get_mem sends rest _ j v hv hjr
            (by rw [List.length_set]; exact hlen)
        · have hij : j = i := by
            rcases List.mem_cons.mp hmem with h1 | h2
            · exact h1
            · exact absurd h2 hjr
          subst hij
          rw [run_deferred_list_get_not_mem sends rest _ j hjr]
          rw [hv] at h
          cases h
          exact List.getElem?_set_eq_of_lt (some v) (by omega)
    | none =>
        have hij : j ≠ i := fun he => by rw [← he, hv] at h; cases h
        have hjr : j ∈ rest := by
          rcases List.mem_cons.mp hmem with h1 | h2
          · exact absurd h1 hij
          · exact h2
        simp only [run_deferred_list, h]
        exact run_deferred_list_get_mem sends rest slots j v hv hjr hlen

theorem run_deferred_list_complete (sends : List (Except String Msg))
    (order : List Nat) (hall : ∀ j, j < sends.length → j ∈ order) :
    run_deferred_list sends order (List.replicate sends.length none) = sends.map some := by
  apply List.ext_getElem?
  intro j
  by_cases hj : j < sends.length
  · obtain ⟨v, hv⟩ : ∃ v, sends[j]? = some v :=
      ⟨sends[j], List.getElem?_eq_getElem hj⟩
    rw [run_deferred_list_get_mem sends order _ j v hv (hall j hj)
      (List.length_replicate _ _), List.getElem?_map, hv]
    rfl
  · have hnone : sends[j]? = none := List.getElem?_eq_none (by omega)
    rw [run_deferred_list_get_none sends order _ j hnone, List.getElem?_map, hnone,
      List.getElem?_replicate]
    simp only [if_neg hj, Option.map_none']

theorem collect_map_some (sends : List (Except String Msg)) :
    collect (sends.map some) = some sends := by
  induction sends with
  | nil => rfl
  | cons x xs ih =>
      simp only [List.map_cons, collect, List.mapM_cons, id] at *
      rw [ih]
      rfl

/-- On any decoded body the dispatcher takes the fresh-send branch (the reply
guard carries a literal `False`), and once every send has completed — in any
completion order covering all of them — the result is the successful
messages, kept in the submission order of `to_addr`. -/
theorem handle_raw_fresh (send : String → String → Except String Msg)
    (order : List Nat) (data : OutboundData)
    (hall : ∀ j, j < data.to_addr.length → j ∈ order) :
    handle_raw_outbound_message send order data =
      some (Except.ok (data.to_addr.filterMap
        (fun to_addr => (send to_addr data.content).toOption))) := by
  unfold handle_raw_outbound_message
  rw [Bool.and_false, if_neg (by decide)]
  show (match collect (run_deferred_list
      (data.to_addr.map (fun to_addr => send to_addr data.content)) order
      (List.replicate (data.to_addr.map
        (fun to_addr => send to_addr data.content)).length none)) with
    | some results => some (Except.ok (results.filterMap (fun (r : Except String Msg) => r.toOption)))
    | none => none) = _
  rw [run_deferred_list_complete _ order
    (by rw [List.length_map]; exact hall), collect_map_some]
  show some (Except.ok ((data.to_addr.map
    (fun to_addr => send to_addr data.content)).filterMap (fun (r : Except String Msg) => r.toOption))) = _
  rw [List.filterMap_map]
  rfl

/-- C4: authentication succeeds iff either the credentials are anonymous and
the configured `vumi_username` is unset (yielding identity `none`), or they
carry a username and password both equal to the configured `vumi_username`
and `vumi_password`; every other case raises `UnauthorizedLogin`. -/
theorem authenticate_success_characterisation
    (getConfig : Option String → RapidSMSRelayConfig) (creds : Creds) :
    ((∃ ident, get_avatar_id getConfig creds = Except.ok ident) ↔
      ((creds = Creds.anonymous ∧ (getConfig none).vumi_username = none) ∨
       (∃ u p, creds = Creds.usernamePassword u p ∧
         (getConfig (some u)).vumi_username = some u ∧
         (getConfig (some u)).vumi_password = some p))) ∧
    ((∃ ident, get_avatar_id getConfig creds = Except.ok ident) ∨
      get_avatar_id getConfig creds = Except.error PyErr.unauthorizedLogin) := by
  cases creds with
  | anonymous =>
      by_cases h : (getConfig none).vumi_username = none
      · simp [get_avatar_id, h]
      · simp [get_avatar_id, h]
  | usernamePassword u p =>
      by_cases h : some u = (getConfig (some u)).vumi_username ∧
          some p = (getConfig (some u)).vumi_password
      · constructor
        · simp only [get_avatar_id, if_pos h]
          constructor
          · intro _
            exact Or.inr ⟨u, p, rfl, h.1.symm, h.2.symm⟩
          · intro _
            exact ⟨some u, rfl⟩
        · exact Or.inl ⟨some u, by simp [get_avatar_id, if_pos h]⟩
      · constructor
        · simp only [get_avatar_id, if_neg h]
          constructor
          · intro ⟨ident, hid⟩
            cases hid
          · intro hr
            rcases hr with ⟨hanon, _⟩ | ⟨u', p', heq, hu, hp⟩
            · cases hanon
            · obtain ⟨rfl, rfl⟩ := Creds.usernamePassword.inj heq
              exact absurd ⟨hu.symm, hp.symm⟩ h
        · exact Or.inr (by simp [get_avatar_id, if_neg h])
  | other =>
      constructor
      · simp [get_avatar_id]
      · exact Or.inr rfl

/-- C5 counterexample: with `rapidsms_username` unset but an unsupported
`rapidsms_auth_method`, `get_auth_headers` raises `ConfigError` instead of
returning the empty header set, because the method check comes first. -/
theorem unsupported_method_errors_even_without_username :
    (RapidSMSRelayConfig.mk true none none "basic" 600 none none
      "digest" "POST").rapidsms_username = none ∧
    get_auth_headers (RapidSMSRelayConfig.mk true none none "basic" 600 none none
      "digest" "POST") =
      Except.error (PyErr.configError
        "HTTP Authentication method 'digest' not supported") :=
  ⟨rfl, rfl⟩

/-- C5 amended: for every configuration whose auth method is in the
supported-methods table, signing with the username unset returns the empty
header set, whatever the password is. -/
theorem no_username_no_auth_headers (config : RapidSMSRelayConfig)
    (hm : (supported_auth_methods.lookup config.rapidsms_auth_method).isSome)
    (hu : config.rapidsms_username = none) :
    get_auth_headers config = Except.ok [] := by
  unfold get_auth_headers
  cases h : supported_auth_methods.lookup config.rapidsms_auth_method with
  | none => rw [h] at hm; cases hm
  | some handler => rw [hu]

theorem no_username_no_auth_headers_witness :
    get_auth_headers (RapidSMSRelayConfig.mk true none none "basic" 600 none
      (some "secret") "basic" "POST") = Except.ok [] :=
  no_username_no_auth_headers
    (RapidSMSRelayConfig.mk true none none "basic" 600 none
      (some "secret") "basic" "POST") rfl rfl

/-- C6: an auth method missing from the supported-methods table makes
`get_auth_headers` raise `ConfigError` at call time; no headers are
returned. -/
theorem unsupported_method_raises_config_error (config : RapidSMSRelayConfig)
    (h : supported_auth_methods.lookup config.rapidsms_auth_method = none) :
    get_auth_headers config = Except.error (PyErr.configError
      ("HTTP Authentication method " ++ py_repr config.rapidsms_auth_method
        ++ " not supported")) := by
  unfold get_auth_headers
  rw [h]

theorem unsupported_method_raises_config_error_witness :
    get_auth_headers (RapidSMSRelayConfig.mk true none none "basic" 600
      (some "u") (some "p") "oauth" "POST") =
      Except.error (PyErr.configError
        "HTTP Authentication method 'oauth' not supported") :=
  unsupported_method_raises_config_error
    (RapidSMSRelayConfig.mk true none none "basic" 600
      (some "u") (some "p") "oauth" "POST") rfl

/-- C7: for every username and password, signing with the `basic` method
produces exactly one header, `Authorization: Basic` followed by the base64
encoding of `username:password`, and decoding that base64 payload gives back
the UTF-8 bytes of `username:password`. -/
theorem basic_auth_header_roundtrip (u p : String) :
    generate_basic_auth_headers u (some p) =
      Except.ok [("Authorization",
        ["Basic " ++ String.mk (b64encode (utf8_bytes (u ++ ":" ++ p)))])] ∧
    b64decode (b64encode (utf8_bytes (u ++ ":" ++ p))) = utf8_bytes (u ++ ":" ++ p) :=
  ⟨rfl, b64_roundtrip _ (utf8_bytes_lt _)⟩

/-- C10: with a configured `rapidsms_username` but no `rapidsms_password`,
the `basic` signer raises `TypeError` from joining the username with `None`:
it neither returns headers nor a `ConfigError`. -/
theorem basic_auth_none_password_type_error (config : RapidSMSRelayConfig)
    (u : String) (hm : config.rapidsms_auth_method = "basic")
    (hu : config.rapidsms_username = some u)
    (hp : config.rapidsms_password = none) :
    get_auth_headers config =
      Except.error (PyErr.typeError
        "sequence item: expected string, NoneType found") := by
  unfold get_auth_headers
  rw [hm, hu, hp]
  rfl

theorem basic_auth_none_password_type_error_witness :
    get_auth_headers (RapidSMSRelayConfig.mk true none none "basic" 600
      (some "rapid-user") none "basic" "POST") =
      Except.error (PyErr.typeError
        "sequence item: expected string, NoneType found") :=
  basic_auth_none_password_type_error
    (RapidSMSRelayConfig.mk true none none "basic" 600
      (some "rapid-user") none "basic" "POST") "rapid-user" rfl rfl rfl

/-- C1: a request with `in_reply_to` present is dispatched as a fresh send to
its `to_addr`, because the reply branch is guarded by a literal `False`; no
pending-reply entry is consulted and no `invalid to_addr for reply` failure
can arise. The send here succeeds, so the reply request is answered with a
fresh outbound message instead of a reply against the original message. -/
theorem reply_request_dispatched_as_fresh_send :
    handle_raw_outbound_message (fun a c => Except.ok (Msg.mk a c)) [0]
      (OutboundData.mk "hello" ["addr-B"] (some "m1")) =
      some (Except.ok [Msg.mk "addr-B" "hello"]) ∧
    (OutboundData.mk "hello" ["addr-B"] (some "m1")).in_reply_to.isSome = true :=
  ⟨rfl, rfl⟩

/-- C2 counterexample: with `to_addr = ["A", "B"]` where the send to `B`
completes before the send to `A` (completion order `[1, 0]`), the dispatcher
still returns `[A, B]` — the submission order — while the completion order of
the successes is `[B, A]`; the two orders differ, so the result is not in
completion order. -/
theorem result_order_not_completion_order :
    handle_raw_outbound_message (fun a c => Except.ok (Msg.mk a c)) [1, 0]
        (OutboundData.mk "hi" ["A", "B"] none) =
      some (Except.ok [Msg.mk "A" "hi", Msg.mk "B" "hi"]) ∧
    completed_successes (fun a c => Except.ok (Msg.mk a c)) [1, 0]
        (OutboundData.mk "hi" ["A", "B"] none) =
      [Msg.mk "B" "hi", Msg.mk "A" "hi"] ∧
    [Msg.mk "A" "hi", Msg.mk "B" "hi"] ≠ [Msg.mk "B" "hi", Msg.mk "A" "hi"] :=
  ⟨rfl, rfl, by decide⟩

/-- C2 amended: once every send has completed, the dispatcher returns only
the successfully dispatched messages, in the submission order of the
addresses in `to_addr`; the result is the same for every completion order
(`DeferredList` keeps results in slot order). -/
theorem dispatch_returns_successes_in_submission_order
    (send : String → String → Except String Msg) (order₁ order₂ : List Nat)
    (data : OutboundData)
    (h1 : ∀ j, j < data.to_addr.length → j ∈ order₁)
    (h2 : ∀ j, j < data.to_addr.length → j ∈ order₂) :
    handle_raw_outbound_message send order₁ data =
      some (Except.ok (data.to_addr.filterMap
        (fun to_addr => (send to_addr data.content).toOption))) ∧
    handle_raw_outbound_message send order₁ data =
      handle_raw_outbound_message send order₂ data := by
  refine ⟨handle_raw_fresh send order₁ data h1, ?_⟩
  rw [handle_raw_fresh send order₁ data h1, handle_raw_fresh send order₂ data h2]

theorem dispatch_returns_successes_in_submission_order_witness :
    handle_raw_outbound_message (fun a c => Except.ok (Msg.mk a c)) [1, 0]
        (OutboundData.mk "hi" ["A", "B"] none) =
      some (Except.ok [Msg.mk "A" "hi", Msg.mk "B" "hi"]) :=
  (dispatch_returns_successes_in_submission_order
    (fun a c => Except.ok (Msg.mk a c)) [1, 0] [0, 1]
    (OutboundData.mk "hi" ["A", "B"] none)
    (by decide) (by decide)).1

/-- C3: one recipient's failure does not fail the call: once every send has
completed, the dispatcher resolves with the successful messages only, and
`finish_request` produces HTTP 200 with the JSON array of exactly those
messages' payloads. -/
theorem partial_failure_returns_200_with_successes
    (send : String → String → Except String Msg) (order : List Nat)
    (data : OutboundData)
    (hall : ∀ j, j < data.to_addr.length → j ∈ order) :
    ∃ msgs, handle_raw_outbound_message send order data = some (Except.ok msgs) ∧
      msgs = data.to_addr.filterMap
        (fun to_addr => (send to_addr data.content).toOption) ∧
      finish_request msgs = (200, to_json_list (msgs.map Msg.payload)) :=
  ⟨_, handle_raw_fresh send order data hall, rfl, rfl⟩

theorem partial_failure_returns_200_with_successes_witness :
    handle_raw_outbound_message
        (fun a c => if a = "B" then Except.error "boom" else Except.ok (Msg.mk a c))
        [0, 1] (OutboundData.mk "hi" ["A", "B"] none) =
      some (Except.ok [Msg.mk "A" "hi"]) ∧
    finish_request [Msg.mk "A" "hi"] =
      (200, to_json_list [Msg.payload (Msg.mk "A" "hi")]) := by
  obtain ⟨msgs, h1, h2, h3⟩ := partial_failure_returns_200_with_successes
    (fun a c => if a = "B" then Except.error "boom" else Except.ok (Msg.mk a c))
    [0, 1] (OutboundData.mk "hi" ["A", "B"] none) (by decide)
  constructor
  · rw [h1, h2]
    rfl
  · rfl

/-- C9: a well-formed request with an empty `to_addr` list and no
`in_reply_to` is accepted: the dispatcher resolves with the empty message
list at once (for any completion order), and the response is HTTP 200 with
body `[]`; nothing rejects the empty recipient list. -/
theorem empty_to_addr_accepted (send : String → String → Except String Msg)
    (order : List Nat) (content : String) :
    handle_raw_outbound_message send order (OutboundData.mk content [] none) =
      some (Except.ok []) ∧
    finish_request [] = (200, "[]") := by
  constructor
  · exact handle_raw_fresh send order (OutboundData.mk content [] none)
      (fun j hj => absurd hj (by simp))
  · rfl

/-- C8: whatever the outcome of the HTTP call to RapidSMS — a response with
any status code or a transport failure — `_call_rapidsms` completes
successfully, logging the status code in the first case and the failure in
the second; no error reaches the backbone caller, and `consume_user_message`
is exactly this operation. -/
theorem call_rapidsms_never_fails (outcome : HttpOutcome) :
    (call_rapidsms outcome).1 = Except.ok () ∧
    (call_rapidsms outcome).2 = (match outcome with
      | Except.ok code => [LogEntry.info code]
      | Except.error e => [LogEntry.err e]) ∧
    consume_user_message outcome = call_rapidsms outcome := by
  cases outcome with
  | ok code => exact ⟨rfl, rfl, rfl⟩
  | error e => exact ⟨rfl, rfl, rfl⟩

end RapidSMS
